import Mathlib

/-!
# Verification of the POET benchmark core

Shallow embedding of the scoring aggregation engine and knowledge base of
the POETDeepResearchBench repository, together with proofs settling the
specification claims.  Python floats are modelled as rationals (the claims
are statements of real arithmetic, not of IEEE rounding), Python dicts with
insertion order as association lists, `defaultdict(list)` indexes as
functions returning a list (empty for absent keys), and fallible code as
`Except`/`Option`.
-/

namespace POET

/-! ## Configuration (`poet_benchmark.POETBenchmark._load_config`)

`_load_config` builds `default_config` and, when a user configuration file
is present and readable, recursively overrides the provided keys
(`_deep_update`); a read failure is swallowed with a warning.  The method
performs no validation whatsoever — in particular the three top-level
dimension weights are never checked against 1 and never renormalized — so
it is embedded as a total function of the (optional) user override. -/

/-- The three top-level dimension weights (`config["poet_weights"]`). -/
structure PoetWeights where
  efficiency_value : ℚ
  quality_value : ℚ
  strategic_value : ℚ
deriving DecidableEq, Repr

/-- The quality sub-weights (`config["quality_value_weights"]`). -/
structure QualityValueWeights where
  race_score : ℚ
  fact_score : ℚ
deriving DecidableEq, Repr

/-- A user configuration file may supply any subset of the keys of
`poet_weights`; `_deep_update` overrides exactly the supplied ones. -/
structure PoetWeightsOverride where
  efficiency_value : Option ℚ := none
  quality_value : Option ℚ := none
  strategic_value : Option ℚ := none
deriving DecidableEq, Repr

/-- `default_config["poet_weights"]`: 0.30 / 0.50 / 0.20. -/
def default_poet_weights : PoetWeights :=
  { efficiency_value := 3/10, quality_value := 5/10, strategic_value := 2/10 }

/-- `default_config["quality_value_weights"]`: 0.70 / 0.30. -/
def default_quality_value_weights : QualityValueWeights :=
  { race_score := 7/10, fact_score := 3/10 }

/-- `_deep_update` restricted to the `poet_weights` sub-dictionary: keys
present in the user dictionary replace the default, absent keys keep it. -/
def deep_update_poet_weights (base : PoetWeights) (u : PoetWeightsOverride) :
    PoetWeights :=
  { efficiency_value := u.efficiency_value.getD base.efficiency_value
    quality_value := u.quality_value.getD base.quality_value
    strategic_value := u.strategic_value.getD base.strategic_value }

/-- `_load_config`, restricted to the `poet_weights` entry of the returned
configuration: defaults, deep-updated by the user configuration when one
was read.  The source contains no weight check and no `raise`, so the
embedding is a total function: every configuration is accepted. -/
def load_config_poet_weights (userConfig : Option PoetWeightsOverride) :
    PoetWeights :=
  match userConfig with
  | none => default_poet_weights
  | some u => deep_update_poet_weights default_poet_weights u

/-! ## Score aggregation (`POETBenchmark.calculate_poet_score`,
`POETBenchmark.calculate_quality_score`) -/

/-- `calculate_poet_score`: the weighted sum of the three dimension scores,
returned together with the breakdown dictionary (which simply records the
three inputs).  No clamping is applied here, unlike in
`calculate_efficiency_score`/`calculate_strategic_score`. -/
def calculate_poet_score (w : PoetWeights)
    (efficiency_score quality_score strategic_score : ℚ) :
    ℚ × (ℚ × ℚ × ℚ) :=
  (efficiency_score * w.efficiency_value +
     quality_score * w.quality_value +
     strategic_score * w.strategic_value,
   (efficiency_score, quality_score, strategic_score))

/-- `calculate_quality_score(race_score, fact_accuracy, fact_citations)`:
normalizes the 0–5 RACE score and the citation accuracy to `[0,1]` and
combines them under the quality sub-weights.  The `fact_citations`
parameter is accepted but never read in the body, exactly as in the
source. -/
def calculate_quality_score (w : QualityValueWeights)
    (race_score fact_accuracy : ℚ) (fact_citations : ℤ) : ℚ :=
  let normalized_race := min 1 (max 0 (race_score / 5))
  let normalized_fact := min 1 (max 0 fact_accuracy)
  normalized_race * w.race_score + normalized_fact * w.fact_score

/-! ## Knowledge base (`utils/strategic_evaluator.py`)

`KnowledgeBase` holds a Python dict `knowledge_units : id → KnowledgeUnit`
(insertion-ordered, embedded as an association list updated with dict
assignment semantics) and two `defaultdict(list)` secondary indexes,
embedded as functions `String → List String` that return `[]` for keys
never touched.  `datetime` values are embedded as integers (microseconds);
`isoformat`/`fromisoformat` is an exact bijection on datetimes, so the
snapshot carries the integer unchanged.  Persistence to disk
(`save=True` triggering `save_knowledge_base`) changes no in-memory state
and is dropped from the state transition itself; the snapshot format is
embedded separately for the round-trip claim. -/

/-- `KnowledgeUnit` dataclass. -/
structure KnowledgeUnit where
  id : String
  content : String
  domain : String
  source_task_id : String
  creation_time : ℤ
  usage_count : ℕ
  quality_score : ℚ
  tags : List String
deriving DecidableEq, Repr

/-- Python dict assignment `m[k] = v`: replace the value at an existing
key in place, otherwise append the new binding at the end. -/
def dictInsert (m : List (String × KnowledgeUnit)) (k : String)
    (v : KnowledgeUnit) : List (String × KnowledgeUnit) :=
  if m.any (fun p => p.1 = k) then
    m.map (fun p => if p.1 = k then (k, v) else p)
  else
    m ++ [(k, v)]

/-- In-memory state of `KnowledgeBase`. -/
structure KnowledgeBase where
  knowledge_units : List (String × KnowledgeUnit)
  domain_index : String → List String
  tag_index : String → List String

/-- A fresh `KnowledgeBase` before `load_knowledge_base` finds a snapshot:
empty dict, empty default-dicts. -/
def emptyKB : KnowledgeBase :=
  { knowledge_units := [], domain_index := fun _ => [], tag_index := fun _ => [] }

/-- `KnowledgeBase.add_knowledge_unit`: store the unit under its id in the
primary dict, and append the id to the domain index list of its domain and
to the tag index list of each of its tags (one append per occurrence of
the tag in `unit.tags`, as the `for tag in unit.tags` loop does). -/
def add_knowledge_unit (kb : KnowledgeBase) (unit : KnowledgeUnit) :
    KnowledgeBase :=
  { knowledge_units := dictInsert kb.knowledge_units unit.id unit
    domain_index := fun d =>
      if d = unit.domain then kb.domain_index d ++ [unit.id] else kb.domain_index d
    tag_index := fun t =>
      kb.tag_index t ++ (unit.tags.filter (fun tag => tag = t)).map (fun _ => unit.id) }

/-- Python dict lookup `unit_id in knowledge_units` / `knowledge_units[unit_id]`
as one operation. -/
def dictGet (m : List (String × KnowledgeUnit)) (k : String) :
    Option KnowledgeUnit :=
  (m.find? (fun p => p.1 = k)).map (fun p => p.2)

/-- `keyword.lower() in unit.content.lower()`: case-folded substring test. -/
def containsKeyword (content keyword : String) : Bool :=
  decide (keyword.toLower.toList <:+: content.toLower.toList)

/-- Stable descending insertion by `quality_score`
(`relevant_units.sort(key=lambda x: x.quality_score, reverse=True)`). -/
def insertByQuality (u : KnowledgeUnit) :
    List KnowledgeUnit → List KnowledgeUnit
  | [] => [u]
  | v :: vs =>
    if v.quality_score < u.quality_score then u :: v :: vs
    else v :: insertByQuality u vs

/-- Sort a unit list by descending `quality_score`. -/
def sortByQualityDesc : List KnowledgeUnit → List KnowledgeUnit
  | [] => []
  | u :: us => insertByQuality u (sortByQualityDesc us)

/-- `KnowledgeBase.find_relevant_knowledge(domain, tags, content_keywords)`.
Python default arguments are `None` and the filters are guarded by
truthiness (`if tags:`), under which `None` and `[]` behave identically,
so both list parameters are embedded as lists with `[]` meaning "not
supplied".  Faithfully to the source, when the current candidate set is
empty (falsy) the tag hits — and then the keyword hits, which are computed
over the whole store — REPLACE the candidate set instead of intersecting
it.  The candidate set is a Python `set`, so ids are deduplicated; its
iteration order is unspecified in Python, and the embedding fixes the
order (which no claim depends on) before the final quality sort. -/
def find_relevant_knowledge (kb : KnowledgeBase) (domain : String)
    (tags : List String := []) (content_keywords : List String := []) :
    List KnowledgeUnit :=
  let candidate_ids := (kb.domain_index domain).dedup
  let candidate_ids :=
    if tags ≠ [] then
      let tag_ids := (tags.flatMap (fun tag => kb.tag_index tag)).dedup
      if candidate_ids ≠ [] then candidate_ids.filter (fun i => i ∈ tag_ids)
      else tag_ids
    else candidate_ids
  let candidate_ids :=
    if content_keywords ≠ [] then
      let keyword_ids :=
        (kb.knowledge_units.filter (fun p =>
          content_keywords.any (fun kw => containsKeyword p.2.content kw))).map
          (fun p => p.1)
      if candidate_ids ≠ [] then candidate_ids.filter (fun i => i ∈ keyword_ids)
      else keyword_ids
    else candidate_ids
  let relevant_units := candidate_ids.filterMap (fun i => dictGet kb.knowledge_units i)
  sortByQualityDesc relevant_units

/-! ### Snapshot persistence (`save_knowledge_base` / `load_knowledge_base`)

The snapshot file is a JSON object whose `knowledge_units` entry is the
list of units, each serialized field by field (`creation_time` through
`isoformat`, an exact bijection, embedded as the integer itself).  The
metadata block (`total_units`, `last_updated`) is write-only and never read
back, so it is not part of the embedded snapshot.  Loading constructs the
units in file order and replays `add_knowledge_unit(unit, save=False)` on
a fresh store, which rebuilds both indexes. -/

/-- One element of the `knowledge_units` list of the snapshot file. -/
structure SavedUnit where
  id : String
  content : String
  domain : String
  source_task_id : String
  creation_time : ℤ
  usage_count : ℕ
  quality_score : ℚ
  tags : List String
deriving DecidableEq, Repr

/-- Serialization of one unit inside `save_knowledge_base`. -/
def toSavedUnit (u : KnowledgeUnit) : SavedUnit :=
  { id := u.id, content := u.content, domain := u.domain
    source_task_id := u.source_task_id, creation_time := u.creation_time
    usage_count := u.usage_count, quality_score := u.quality_score
    tags := u.tags }

/-- Reconstruction of one unit inside `load_knowledge_base`. -/
def ofSavedUnit (s : SavedUnit) : KnowledgeUnit :=
  { id := s.id, content := s.content, domain := s.domain
    source_task_id := s.source_task_id, creation_time := s.creation_time
    usage_count := s.usage_count, quality_score := s.quality_score
    tags := s.tags }

/-- `save_knowledge_base`: the snapshot lists the units in the value order
of the primary dict. -/
def save_knowledge_base (kb : KnowledgeBase) : List SavedUnit :=
  kb.knowledge_units.map (fun p => toSavedUnit p.2)

/-- `load_knowledge_base` on a readable snapshot: starting from the fresh
store of `__init__`, add every listed unit with `save=False`. -/
def load_knowledge_base (snapshot : List SavedUnit) : KnowledgeBase :=
  snapshot.foldl (fun kb s => add_knowledge_unit kb (ofSavedUnit s)) emptyKB

/-! ### Consistency scoring (`StrategicEvaluator.calculate_knowledge_consistency`) -/

/-- `content.lower().split()`: the set of whitespace-separated words of the
case-folded content.  Python `split()` with no argument splits on runs of
whitespace and produces no empty strings. -/
def wordSet (content : String) : Finset String :=
  ((content.toLower.split Char.isWhitespace).filter (fun w => w ≠ "")).toFinset

/-- The token-set similarity computed in the inner loop: Jaccard index of
the two word sets when both are non-empty (`if new_words and
existing_words:`), otherwise the contribution is skipped, i.e. 0.  The
source's `if union > 0 else 0` guard is vacuous there since both sets are
non-empty. -/
def jaccardSimilarity (newContent existingContent : String) : ℚ :=
  let new_words := wordSet newContent
  let existing_words := wordSet existingContent
  if new_words = ∅ ∨ existing_words = ∅ then 0
  else ((new_words ∩ existing_words).card : ℚ) / ((new_words ∪ existing_words).card : ℚ)

/-- The per-unit loop body: maximum similarity of one new unit against the
first 10 existing units (`existing_units[:10]`), starting from
`max_similarity = 0.0`. -/
def maxSimilarity (existing : List KnowledgeUnit) (new_unit : KnowledgeUnit) : ℚ :=
  ((existing.take 10).map (fun eu => jaccardSimilarity new_unit.content eu.content)).foldl
    max 0

/-- `calculate_knowledge_consistency(new_units, domain)`: 1.0 on an empty
batch; 1.0 when `find_relevant_knowledge(domain)` finds no existing
knowledge; otherwise the mean over the new units of the per-unit maximum
similarity. -/
def calculate_knowledge_consistency (kb : KnowledgeBase)
    (new_units : List KnowledgeUnit) (domain : String) : ℚ :=
  if new_units = [] then 1
  else
    let existing_units := find_relevant_knowledge kb domain
    if existing_units = [] then 1
    else
      let consistency_scores := new_units.map (maxSimilarity existing_units)
      consistency_scores.sum / (consistency_scores.length : ℚ)

/-! ## Efficiency evaluator (`utils/efficiency_evaluator_clean.py`)

The evaluator is a small state machine.  `time.time()` values are supplied
as explicit parameters.  The only `raise` in the module is `end_task`'s
`ValueError` when no task is in flight, so `end_task` returns `Except`
while `start_task`, `add_token_usage` and `add_error` are total: they
perform plain attribute assignments and cannot fail. -/

/-- `EfficiencyMetrics` dataclass. -/
structure EfficiencyMetrics where
  task_id : String
  task_title : String
  start_time : ℚ
  end_time : ℚ
  completion_time_seconds : ℚ
  input_tokens : ℕ
  output_tokens : ℕ
  total_tokens : ℕ
  estimated_cost_usd : ℚ
  expert_time_hours : ℚ
  expert_hourly_rate_usd : ℚ
  automation_rate : ℚ
  cost_saving_usd : ℚ
  task_success : Bool
  error_count : ℕ
deriving DecidableEq, Repr

/-- Mutable state of an `EfficiencyEvaluator` instance.  `token_usage` is
the dict `{"input": _, "output": _}` split into its two entries;
`current_task_title` is only ever read after `start_task` set it, so its
pre-first-start absence is embedded as `""`. -/
structure EfficiencyEvaluator where
  expert_time_hours : ℚ
  expert_hourly_rate_usd : ℚ
  token_cost_per_1k_input : ℚ
  token_cost_per_1k_output : ℚ
  current_task_id : Option String
  current_task_title : String
  start_time : Option ℚ
  token_input : ℕ
  token_output : ℕ
  error_count : ℕ
deriving DecidableEq, Repr

/-- `EfficiencyEvaluator.__init__` with its default pricing. -/
def EfficiencyEvaluator.init (expert_time_hours : ℚ := 1)
    (expert_hourly_rate_usd : ℚ := 100)
    (token_cost_per_1k_input : ℚ := 15/10000)
    (token_cost_per_1k_output : ℚ := 6/1000) : EfficiencyEvaluator :=
  { expert_time_hours, expert_hourly_rate_usd,
    token_cost_per_1k_input, token_cost_per_1k_output
    current_task_id := none, current_task_title := ""
    start_time := none, token_input := 0, token_output := 0, error_count := 0 }

/-- `start_task(task_id, task_title)` at wall-clock time `now`: record the
task, reset both token counters and the error counter.  The source checks
nothing about the current state — a task already in flight is silently
discarded. -/
def start_task (ev : EfficiencyEvaluator) (task_id : String)
    (task_title : String) (now : ℚ) : EfficiencyEvaluator :=
  { ev with
    current_task_id := some task_id
    current_task_title := task_title
    start_time := some now
    token_input := 0
    token_output := 0
    error_count := 0 }

/-- `add_token_usage`. -/
def add_token_usage (ev : EfficiencyEvaluator)
    (input_tokens output_tokens : ℕ) : EfficiencyEvaluator :=
  { ev with
    token_input := ev.token_input + input_tokens
    token_output := ev.token_output + output_tokens }

/-- `_calculate_cost`. -/
def calculate_cost (ev : EfficiencyEvaluator)
    (input_tokens output_tokens : ℕ) : ℚ :=
  ((input_tokens : ℚ) / 1000) * ev.token_cost_per_1k_input +
    ((output_tokens : ℚ) / 1000) * ev.token_cost_per_1k_output

/-- `_calculate_automation_rate(completion_time_seconds)`: 1.0 for a
non-positive expert baseline, otherwise `1 - ai_hours/expert_hours`
clamped into `[0,1]`. -/
def calculate_automation_rate (ev : EfficiencyEvaluator)
    (completion_time_seconds : ℚ) : ℚ :=
  let ai_time_hours := completion_time_seconds / 3600
  if ev.expert_time_hours ≤ 0 then 1
  else max 0 (min 1 (1 - ai_time_hours / ev.expert_time_hours))

/-- `_calculate_cost_saving`. -/
def calculate_cost_saving (ev : EfficiencyEvaluator)
    (completion_time_seconds : ℚ) : ℚ :=
  let expert_cost := ev.expert_time_hours * ev.expert_hourly_rate_usd
  let ai_cost := calculate_cost ev ev.token_input ev.token_output
  max 0 (expert_cost - ai_cost)

/-- `end_task(success)` at wall-clock time `now`: `ValueError` when no task
is in flight; otherwise build the metrics snapshot and reset
`current_task_id`/`start_time` to `None`.  (A state with a task id but no
start time would make the Python subtraction fail, which the embedding
renders as the second error case; it is unreachable from `init` and
`start_task`.) -/
def end_task (ev : EfficiencyEvaluator) (now : ℚ) (success : Bool) :
    Except String (EfficiencyMetrics × EfficiencyEvaluator) :=
  match ev.current_task_id with
  | none => .error "no task in progress"
  | some task_id =>
    match ev.start_time with
    | none => .error "missing start time"
    | some t0 =>
      let completion_time_seconds := now - t0
      let estimated_cost := calculate_cost ev ev.token_input ev.token_output
      let metrics : EfficiencyMetrics :=
        { task_id := task_id
          task_title := ev.current_task_title
          start_time := t0
          end_time := now
          completion_time_seconds := completion_time_seconds
          input_tokens := ev.token_input
          output_tokens := ev.token_output
          total_tokens := ev.token_input + ev.token_output
          estimated_cost_usd := estimated_cost
          expert_time_hours := ev.expert_time_hours
          expert_hourly_rate_usd := ev.expert_hourly_rate_usd
          automation_rate := calculate_automation_rate ev completion_time_seconds
          cost_saving_usd := calculate_cost_saving ev completion_time_seconds
          task_success := success
          error_count := ev.error_count }
      .ok (metrics, { ev with current_task_id := none, start_time := none })

/-! ## Strategic capability sub-scoring
(`StrategicEvaluator.evaluate_complex_task_capability`,
`StrategicEvaluator.evaluate_knowledge_capabilities`)

Both methods call the text-generation boundary, regex-extract a JSON
payload from the free-text response, and read four sub-scores with
`float(result.get(key, 3.0))`.  The boundary call is embedded as an
`Except` value (a raised exception lands in the `except` branch, which
returns all defaults); the regex + `json.loads` + `float` pipeline is
embedded as a parameter `parse : String → Option Parsed…` returning `none`
when no payload is found, the payload is malformed JSON, or a present
value fails float conversion (all of which end in the all-defaults path),
and otherwise a record of the sub-scores actually present as numbers. -/

/-- Sub-scores present in a successfully parsed task-capability payload. -/
structure ParsedTaskCapability where
  multi_step_reasoning_score : Option ℚ
  domain_expertise_score : Option ℚ
  synthesis_capability_score : Option ℚ
  independence_score : Option ℚ
deriving DecidableEq, Repr

/-- The four task-capability sub-scores returned to the caller. -/
structure TaskCapabilityScores where
  multi_step_reasoning_score : ℚ
  domain_expertise_score : ℚ
  synthesis_capability_score : ℚ
  independence_score : ℚ
deriving DecidableEq, Repr

/-- The all-defaults return value of `evaluate_complex_task_capability`. -/
def defaultTaskCapabilityScores : TaskCapabilityScores :=
  { multi_step_reasoning_score := 3, domain_expertise_score := 3
    synthesis_capability_score := 3, independence_score := 3 }

/-- `evaluate_complex_task_capability`, as a function of the boundary-call
outcome and of the payload-extraction function. -/
def evaluate_complex_task_capability
    (parse : String → Option ParsedTaskCapability)
    (response : Except String String) : TaskCapabilityScores :=
  match response with
  | .error _ => defaultTaskCapabilityScores
  | .ok text =>
    match parse text with
    | none => defaultTaskCapabilityScores
    | some result =>
      { multi_step_reasoning_score := result.multi_step_reasoning_score.getD 3
        domain_expertise_score := result.domain_expertise_score.getD 3
        synthesis_capability_score := result.synthesis_capability_score.getD 3
        independence_score := result.independence_score.getD 3 }

/-- Sub-scores present in a successfully parsed knowledge-capability
payload. -/
structure ParsedKnowledgeCapability where
  knowledge_extraction_score : Option ℚ
  knowledge_organization_score : Option ℚ
  knowledge_reuse_potential : Option ℚ
  knowledge_quality_score : Option ℚ
deriving DecidableEq, Repr

/-- The four knowledge-capability sub-scores returned to the caller. -/
structure KnowledgeCapabilityScores where
  knowledge_extraction_score : ℚ
  knowledge_organization_score : ℚ
  knowledge_reuse_potential : ℚ
  knowledge_quality_score : ℚ
deriving DecidableEq, Repr

/-- The all-defaults return value of `evaluate_knowledge_capabilities`. -/
def defaultKnowledgeCapabilityScores : KnowledgeCapabilityScores :=
  { knowledge_extraction_score := 3, knowledge_organization_score := 3
    knowledge_reuse_potential := 3, knowledge_quality_score := 3 }

/-- `evaluate_knowledge_capabilities`, as a function of the boundary-call
outcome and of the payload-extraction function. -/
def evaluate_knowledge_capabilities
    (parse : String → Option ParsedKnowledgeCapability)
    (response : Except String String) : KnowledgeCapabilityScores :=
  match response with
  | .error _ => defaultKnowledgeCapabilityScores
  | .ok text =>
    match parse text with
    | none => defaultKnowledgeCapabilityScores
    | some result =>
      { knowledge_extraction_score := result.knowledge_extraction_score.getD 3
        knowledge_organization_score := result.knowledge_organization_score.getD 3
        knowledge_reuse_potential := result.knowledge_reuse_potential.getD 3
        knowledge_quality_score := result.knowledge_quality_score.getD 3 }

/-- `max(0.0, min(1.0, x))`, the clamp used by the efficiency formulas. -/
def clamp01 (x : ℚ) : ℚ := max 0 (min 1 x)

/-! ## Concrete fixtures used by counterexamples and witnesses -/

/-- A user configuration overriding all three dimension weights with values
summing to 0.9. -/
def overrideNine : PoetWeightsOverride :=
  { efficiency_value := some (5/10), quality_value := some (3/10)
    strategic_value := some (1/10) }

/-- An evaluator state with a task in flight and non-zero counters. -/
def runningEv : EfficiencyEvaluator :=
  { EfficiencyEvaluator.init with
    current_task_id := some "t1", current_task_title := "first"
    start_time := some 10, token_input := 5, token_output := 7, error_count := 2 }

/-! ## C1 — configuration weights are accepted without validation -/

/-- C1 counterexample: `_load_config` (and hence `POETBenchmark.__init__`,
which calls nothing else that inspects the weights — the module contains
no weight check and no raise besides `end_task`'s) accepts a configuration
whose three top-level dimension weights sum to 0.9.  `load_config_poet_weights`
is a total function — construction cannot fail — and the accepted weights
are exactly the supplied ones, summing to 9/10, well outside any small
tolerance around 1.  This refutes the claim that such a configuration is
rejected at construction time and that every accepted configuration's
weights sum to 1. -/
theorem c1_weights_not_validated_counterexample :
    load_config_poet_weights (some overrideNine) =
      { efficiency_value := 5/10, quality_value := 3/10, strategic_value := 1/10 } ∧
    (load_config_poet_weights (some overrideNine)).efficiency_value +
        (load_config_poet_weights (some overrideNine)).quality_value +
        (load_config_poet_weights (some overrideNine)).strategic_value = 9/10 := by
  constructor
  · rfl
  · norm_num [load_config_poet_weights, deep_update_poet_weights,
      default_poet_weights, overrideNine]

/-- C1 amended: construction never validates nor renormalizes the top-level
dimension weights: `_load_config` is total, returns the user-supplied value
for every overridden key and the default for the rest, and only the
default configuration's weights are guaranteed to sum to 1. -/
theorem c1_weights_accepted_verbatim (u : PoetWeightsOverride) :
    load_config_poet_weights (some u) =
      { efficiency_value := u.efficiency_value.getD (3/10)
        quality_value := u.quality_value.getD (5/10)
        strategic_value := u.strategic_value.getD (2/10) } ∧
    load_config_poet_weights none = default_poet_weights ∧
    default_poet_weights.efficiency_value + default_poet_weights.quality_value +
        default_poet_weights.strategic_value = 1 := by
  refine ⟨rfl, rfl, by norm_num [default_poet_weights]⟩

/-! ## C2 — the composite score is the weighted sum and stays in [0,1] -/

/-- C2: for dimension scores in `[0,1]` and a weight configuration (three
nonnegative weights) summing to 1, `calculate_poet_score` returns exactly
the weighted sum of the dimension scores, which lies in `[0,1]`;
all-zero scores give 0 and all-one scores give 1. -/
theorem c2_poet_score_weighted_sum_bounded (w : PoetWeights) (e q s : ℚ)
    (hwe : 0 ≤ w.efficiency_value) (hwq : 0 ≤ w.quality_value)
    (hws : 0 ≤ w.strategic_value)
    (hsum : w.efficiency_value + w.quality_value + w.strategic_value = 1)
    (he0 : 0 ≤ e) (he1 : e ≤ 1) (hq0 : 0 ≤ q) (hq1 : q ≤ 1)
    (hs0 : 0 ≤ s) (hs1 : s ≤ 1) :
    (calculate_poet_score w e q s).1 =
        e * w.efficiency_value + q * w.quality_value + s * w.strategic_value ∧
    0 ≤ (calculate_poet_score w e q s).1 ∧
    (calculate_poet_score w e q s).1 ≤ 1 ∧
    (calculate_poet_score w 0 0 0).1 = 0 ∧
    (calculate_poet_score w 1 1 1).1 = 1 := by
  refine ⟨rfl, ?_, ?_, ?_, ?_⟩
  · have h1 := mul_nonneg he0 hwe
    have h2 := mul_nonneg hq0 hwq
    have h3 := mul_nonneg hs0 hws
    simp only [calculate_poet_score]
    linarith
  · have h1 := mul_le_mul_of_nonneg_right he1 hwe
    have h2 := mul_le_mul_of_nonneg_right hq1 hwq
    have h3 := mul_le_mul_of_nonneg_right hs1 hws
    simp only [calculate_poet_score]
    linarith
  · simp [calculate_poet_score]
  · simp only [calculate_poet_score, one_mul]
    linarith

/-- C2 witness: the theorem applied to the default weight configuration and
scores (1/2, 1/3, 1/4). -/
theorem c2_poet_score_witness :
    (calculate_poet_score default_poet_weights (1/2) (1/3) (1/4)).1 =
        (1/2) * default_poet_weights.efficiency_value +
          (1/3) * default_poet_weights.quality_value +
          (1/4) * default_poet_weights.strategic_value ∧
    0 ≤ (calculate_poet_score default_poet_weights (1/2) (1/3) (1/4)).1 ∧
    (calculate_poet_score default_poet_weights (1/2) (1/3) (1/4)).1 ≤ 1 ∧
    (calculate_poet_score default_poet_weights 0 0 0).1 = 0 ∧
    (calculate_poet_score default_poet_weights 1 1 1).1 = 1 :=
  c2_poet_score_weighted_sum_bounded default_poet_weights (1/2) (1/3) (1/4)
    (by norm_num [default_poet_weights]) (by norm_num [default_poet_weights])
    (by norm_num [default_poet_weights]) (by norm_num [default_poet_weights])
    (by norm_num) (by norm_num) (by norm_num) (by norm_num) (by norm_num) (by norm_num)

/-! ## C10 — the effective-citations count never influences the quality score -/

/-- C10: `calculate_quality_score` returns the same value for any two
values of the effective-citations argument; the result is exactly the
weighted combination of the clamp-normalized RACE score and the clamped
citation accuracy. -/
theorem c10_quality_score_ignores_citations (w : QualityValueWeights)
    (race_score fact_accuracy : ℚ) (c1 c2 : ℤ) :
    calculate_quality_score w race_score fact_accuracy c1 =
        calculate_quality_score w race_score fact_accuracy c2 ∧
    calculate_quality_score w race_score fact_accuracy c1 =
        min 1 (max 0 (race_score / 5)) * w.race_score +
          min 1 (max 0 fact_accuracy) * w.fact_score :=
  ⟨rfl, rfl⟩

/-! ## C9 — automation rate is the clamped time ratio -/

/-- C9: for every evaluator state and nonnegative elapsed time, the
automation rate equals `clamp01 (1 - elapsed_hours / expert_hours)` (under
the `x / 0 = 0` convention of rational division, which agrees with the
source's explicit non-positive-baseline branch), lies in `[0,1]`, and is
exactly 1 whenever the expert baseline is zero or negative. -/
theorem c9_automation_rate_clamped (ev : EfficiencyEvaluator)
    (secs : ℚ) (hsecs : 0 ≤ secs) :
    calculate_automation_rate ev secs =
        clamp01 (1 - (secs / 3600) / ev.expert_time_hours) ∧
    0 ≤ calculate_automation_rate ev secs ∧
    calculate_automation_rate ev secs ≤ 1 ∧
    (ev.expert_time_hours ≤ 0 → calculate_automation_rate ev secs = 1) := by
  rcases le_or_lt ev.expert_time_hours 0 with hle | hpos
  · have hdiv : (secs / 3600) / ev.expert_time_hours ≤ 0 := by
      rcases lt_or_eq_of_le hle with hlt | heq
      · exact div_nonpos_of_nonneg_of_nonpos (by positivity) hlt.le
      · rw [heq, div_zero]
    have hrate : calculate_automation_rate ev secs = 1 := by
      simp [calculate_automation_rate, hle]
    have hclamp : clamp01 (1 - (secs / 3600) / ev.expert_time_hours) = 1 := by
      unfold clamp01
      rw [min_eq_left (by linarith), max_eq_right zero_le_one]
    exact ⟨hrate.trans hclamp.symm, by rw [hrate]; norm_num, by rw [hrate],
      fun _ => hrate⟩
  · have hrate : calculate_automation_rate ev secs =
        max 0 (min 1 (1 - (secs / 3600) / ev.expert_time_hours)) := by
      simp [calculate_automation_rate, not_le.mpr hpos, hpos.not_le]
    refine ⟨hrate, ?_, ?_, fun hcontra => absurd hcontra hpos.not_le⟩
    · rw [hrate]; exact le_max_left 0 _
    · rw [hrate]; exact max_le zero_le_one (min_le_left 1 _)

/-- C9 witness: the default evaluator (expert baseline 1 hour) after 1800
seconds. -/
theorem c9_automation_rate_witness :
    calculate_automation_rate EfficiencyEvaluator.init 1800 =
        clamp01 (1 - ((1800 : ℚ) / 3600) / EfficiencyEvaluator.init.expert_time_hours) ∧
    0 ≤ calculate_automation_rate EfficiencyEvaluator.init 1800 ∧
    calculate_automation_rate EfficiencyEvaluator.init 1800 ≤ 1 ∧
    (EfficiencyEvaluator.init.expert_time_hours ≤ 0 →
      calculate_automation_rate EfficiencyEvaluator.init 1800 = 1) :=
  c9_automation_rate_clamped EfficiencyEvaluator.init 1800 (by norm_num)

/-! ## C4 — starting over a running task does not fail -/

/-- C4 counterexample: `start_task` performs no state check and cannot
raise (its body is plain attribute assignments, embedded as a total
function).  Called on a state with task `"t1"` in flight and non-zero
token and error counters, it succeeds and silently resets the counters
and the start time, replacing the in-flight task — exactly the behavior
the claim says is prevented by an `InvalidStateError` (no such error
exists anywhere in the module; its only raise is `end_task`'s
`ValueError`). -/
theorem c4_start_over_running_counterexample :
    runningEv.current_task_id = some "t1" ∧
    runningEv.token_input = 5 ∧ runningEv.token_output = 7 ∧
    runningEv.error_count = 2 ∧
    start_task runningEv "t2" "second" 50 =
      { runningEv with
        current_task_id := some "t2", current_task_title := "second"
        start_time := some 50, token_input := 0, token_output := 0
        error_count := 0 } :=
  ⟨rfl, rfl, rfl, rfl, rfl⟩

/-- C4 amended: calling `start_task` always succeeds — including while a
task is already running — and silently resets the token counters, the
error counter and the start time while installing the new task id; the
evaluator's only state-machine failure is `end_task` raising `ValueError`
when no task is in flight. -/
theorem c4_start_always_resets (ev : EfficiencyEvaluator)
    (task_id task_title : String) (now : ℚ) (success : Bool) :
    (start_task ev task_id task_title now).current_task_id = some task_id ∧
    (start_task ev task_id task_title now).token_input = 0 ∧
    (start_task ev task_id task_title now).token_output = 0 ∧
    (start_task ev task_id task_title now).error_count = 0 ∧
    (start_task ev task_id task_title now).start_time = some now ∧
    (ev.current_task_id = none →
      end_task ev now success = Except.error "no task in progress") := by
  refine ⟨rfl, rfl, rfl, rfl, rfl, fun h => ?_⟩
  simp [end_task, h]

/-- C4 amended witness: the fresh evaluator, started once, and closed
without a task in flight. -/
theorem c4_start_always_resets_witness :
    (start_task EfficiencyEvaluator.init "t2" "x" 5).current_task_id = some "t2" ∧
    (start_task EfficiencyEvaluator.init "t2" "x" 5).token_input = 0 ∧
    (start_task EfficiencyEvaluator.init "t2" "x" 5).token_output = 0 ∧
    (start_task EfficiencyEvaluator.init "t2" "x" 5).error_count = 0 ∧
    (start_task EfficiencyEvaluator.init "t2" "x" 5).start_time = some 5 ∧
    end_task EfficiencyEvaluator.init 5 true = Except.error "no task in progress" := by
  obtain ⟨h1, h2, h3, h4, h5, h6⟩ :=
    c4_start_always_resets EfficiencyEvaluator.init "t2" "x" 5 true
  exact ⟨h1, h2, h3, h4, h5, h6 rfl⟩

/-! ## C8 — missing sub-scores degrade to the neutral default 3.0 -/

/-- C8: both strategic sub-scoring steps always return a complete record of
four sub-scores: a boundary-call error or an unparseable response yields
the all-3.0 default record, and a parsed payload fills each missing
sub-score with 3.0 while keeping each parsed one — in particular the
result is the all-3.0 record even when 0 of 4 sub-scores parsed. -/
theorem c8_neutral_default_substitution :
    (∀ (parse : String → Option ParsedTaskCapability) (e : String),
      evaluate_complex_task_capability parse (Except.error e) =
        defaultTaskCapabilityScores) ∧
    (∀ (parse : String → Option ParsedTaskCapability) (text : String),
      parse text = none →
        evaluate_complex_task_capability parse (Except.ok text) =
          defaultTaskCapabilityScores) ∧
    (∀ (parse : String → Option ParsedTaskCapability) (text : String)
        (p : ParsedTaskCapability),
      parse text = some p →
        evaluate_complex_task_capability parse (Except.ok text) =
          { multi_step_reasoning_score := p.multi_step_reasoning_score.getD 3
            domain_expertise_score := p.domain_expertise_score.getD 3
            synthesis_capability_score := p.synthesis_capability_score.getD 3
            independence_score := p.independence_score.getD 3 }) ∧
    (∀ (parse : String → Option ParsedKnowledgeCapability) (e : String),
      evaluate_knowledge_capabilities parse (Except.error e) =
        defaultKnowledgeCapabilityScores) ∧
    (∀ (parse : String → Option ParsedKnowledgeCapability) (text : String),
      parse text = none →
        evaluate_knowledge_capabilities parse (Except.ok text) =
          defaultKnowledgeCapabilityScores) ∧
    (∀ (parse : String → Option ParsedKnowledgeCapability) (text : String)
        (p : ParsedKnowledgeCapability),
      parse text = some p →
        evaluate_knowledge_capabilities parse (Except.ok text) =
          { knowledge_extraction_score := p.knowledge_extraction_score.getD 3
            knowledge_organization_score := p.knowledge_organization_score.getD 3
            knowledge_reuse_potential := p.knowledge_reuse_potential.getD 3
            knowledge_quality_score := p.knowledge_quality_score.getD 3 }) := by
  refine ⟨fun parse e => rfl, fun parse text h => ?_, fun parse text p h => ?_,
    fun parse e => rfl, fun parse text h => ?_, fun parse text p h => ?_⟩
  · simp [evaluate_complex_task_capability, h]
  · simp [evaluate_complex_task_capability, h]
  · simp [evaluate_knowledge_capabilities, h]
  · simp [evaluate_knowledge_capabilities, h]

/-- C8 witness: a service error, a response with no parseable payload, a
payload with 2 of 4 sub-scores, and a payload with 0 of 4 sub-scores. -/
theorem c8_neutral_default_substitution_witness :
    evaluate_complex_task_capability (fun _ => none) (Except.error "timeout") =
      defaultTaskCapabilityScores ∧
    evaluate_knowledge_capabilities (fun _ => none) (Except.ok "no json here") =
      defaultKnowledgeCapabilityScores ∧
    evaluate_complex_task_capability
        (fun _ => some ⟨some 4, none, some 2, none⟩) (Except.ok "resp") =
      ⟨4, 3, 2, 3⟩ ∧
    evaluate_complex_task_capability
        (fun _ => some ⟨none, none, none, none⟩) (Except.ok "resp") =
      defaultTaskCapabilityScores := by
  obtain ⟨h1, h2, h3, h4, h5, h6⟩ := c8_neutral_default_substitution
  exact ⟨h1 (fun _ => none) "timeout", h5 (fun _ => none) "no json here" rfl,
    h3 (fun _ => some ⟨some 4, none, some 2, none⟩) "resp" ⟨some 4, none, some 2, none⟩ rfl,
    h3 (fun _ => some ⟨none, none, none, none⟩) "resp" ⟨none, none, none, none⟩ rfl⟩

/-! ## Knowledge-base lemmas -/

/-- After a dict assignment the binding is present. -/
theorem mem_dictInsert_self (m : List (String × KnowledgeUnit)) (k : String)
    (v : KnowledgeUnit) : (k, v) ∈ dictInsert m k v := by
  unfold dictInsert
  split
  · rename_i h
    rw [List.any_eq_true] at h
    obtain ⟨p, hp, hpk⟩ := h
    rw [decide_eq_true_iff] at hpk
    refine List.mem_map.mpr ⟨p, hp, ?_⟩
    rw [if_pos hpk]
  · exact List.mem_append_right m (List.mem_singleton.mpr rfl)

/-- Assigning to a key already present does not change the dict size. -/
theorem length_dictInsert_of_present (m : List (String × KnowledgeUnit))
    (k : String) (v : KnowledgeUnit) (h : m.any (fun p => p.1 = k)) :
    (dictInsert m k v).length = m.length := by
  unfold dictInsert
  rw [if_pos h, List.length_map]

/-- Assigning to a fresh key appends the binding. -/
theorem dictInsert_of_absent (m : List (String × KnowledgeUnit))
    (k : String) (v : KnowledgeUnit) (h : m.any (fun p => p.1 = k) = false) :
    dictInsert m k v = m ++ [(k, v)] := by
  unfold dictInsert
  rw [if_neg (by simp [h])]

/-- The primary dict of any store reached by `add_knowledge_unit u` has an
entry under `u.id`. -/
theorem add_knowledge_unit_key_present (kb : KnowledgeBase) (u : KnowledgeUnit) :
    (add_knowledge_unit kb u).knowledge_units.any (fun p => p.1 = u.id) := by
  rw [List.any_eq_true]
  exact ⟨(u.id, u), mem_dictInsert_self kb.knowledge_units u.id u, by simp⟩

/-- Appending only elements already present does not change list
membership. -/
theorem mem_append_of_subset_iff {α : Type} (l m : List α)
    (h : ∀ y ∈ m, y ∈ l) (x : α) : x ∈ l ++ m ↔ x ∈ l := by
  rw [List.mem_append]
  exact ⟨fun hx => hx.elim id (fun hm => h x hm), Or.inl⟩

/-! ## C5 — duplicate add overwrites and leaves index membership unchanged -/

/-- C5: adding the same knowledge unit a second time leaves the size of the
primary dict unchanged (the id is overwritten, not appended) and leaves
the membership of every domain-index and tag-index list unchanged (the id
lists gain only duplicates of an id they already contain). -/
theorem c5_duplicate_add_idempotent_membership (kb : KnowledgeBase)
    (u : KnowledgeUnit) :
    (add_knowledge_unit (add_knowledge_unit kb u) u).knowledge_units.length =
        (add_knowledge_unit kb u).knowledge_units.length ∧
    (∀ d x, x ∈ (add_knowledge_unit (add_knowledge_unit kb u) u).domain_index d ↔
        x ∈ (add_knowledge_unit kb u).domain_index d) ∧
    (∀ t x, x ∈ (add_knowledge_unit (add_knowledge_unit kb u) u).tag_index t ↔
        x ∈ (add_knowledge_unit kb u).tag_index t) := by
  refine ⟨?_, ?_, ?_⟩
  · exact length_dictInsert_of_present _ u.id u (add_knowledge_unit_key_present kb u)
  · intro d x
    show x ∈ (if d = u.domain then (add_knowledge_unit kb u).domain_index d ++ [u.id]
        else (add_knowledge_unit kb u).domain_index d) ↔ _
    split
    · rename_i hd
      refine mem_append_of_subset_iff _ _ (fun y hy => ?_) x
      rw [List.mem_singleton] at hy
      subst hy
      show u.id ∈
        (if d = u.domain then kb.domain_index d ++ [u.id] else kb.domain_index d)
      rw [if_pos hd]
      exact List.mem_append_right _ (List.mem_singleton.mpr rfl)
    · exact Iff.rfl
  · intro t x
    show x ∈ (add_knowledge_unit kb u).tag_index t ++
        (u.tags.filter (fun tag => tag = t)).map (fun _ => u.id) ↔ _
    refine mem_append_of_subset_iff _ _ (fun y hy => ?_) x
    rw [List.mem_map] at hy
    obtain ⟨a, ha, hay⟩ := hy
    subst hay
    show u.id ∈ kb.tag_index t ++ (u.tags.filter (fun tag => tag = t)).map (fun _ => u.id)
    exact List.mem_append_right _ (List.mem_map_of_mem _ ha)

/-- Flat-mapping to empty lists produces the empty list. -/
theorem flatMap_nil_eq {α β : Type} (l : List α) :
    (l.flatMap fun _ => ([] : List β)) = [] := by
  induction l with
  | nil => rfl
  | cons a l ih => simp [List.flatMap_cons, ih]

/-- Membership through the stable quality insertion. -/
theorem mem_insertByQuality (u x : KnowledgeUnit) (l : List KnowledgeUnit) :
    x ∈ insertByQuality u l ↔ x = u ∨ x ∈ l := by
  induction l with
  | nil => simp [insertByQuality]
  | cons v vs ih =>
    unfold insertByQuality
    split
    · simp [List.mem_cons]
    · simp only [List.mem_cons, ih]
      tauto

/-- The quality sort does not change membership. -/
theorem mem_sortByQualityDesc (x : KnowledgeUnit) (l : List KnowledgeUnit) :
    x ∈ sortByQualityDesc l ↔ x ∈ l := by
  induction l with
  | nil => simp [sortByQualityDesc]
  | cons u us ih => simp [sortByQualityDesc, mem_insertByQuality, ih, List.mem_cons]

/-- The domain index points only to stored units of that domain.  This is
the invariant every store reached by `add_knowledge_unit` with fresh ids
satisfies; a mixed-domain overwrite of an id can break it, which is why it
is a hypothesis of the amended C3 statement. -/
def DomainIndexWF (kb : KnowledgeBase) : Prop :=
  ∀ d x, x ∈ kb.domain_index d →
    ∃ u, dictGet kb.knowledge_units x = some u ∧ u.domain = d

/-- A knowledge unit of domain `"a"` tagged `"t"`. -/
def unitA : KnowledgeUnit :=
  { id := "k1", content := "alpha beta", domain := "a", source_task_id := "t1"
    creation_time := 0, usage_count := 0, quality_score := 2, tags := ["t"] }

/-- The store holding exactly `unitA`. -/
def kbA : KnowledgeBase := add_knowledge_unit emptyKB unitA

/-! ## C3 — tag/keyword filters can escape the requested domain -/

/-- C3 counterexample: on the store holding only `unitA` (domain `"a"`,
tag `"t"`), `find_relevant_knowledge("b", tags=["t"])` returns `unitA`
even though the store has no unit indexed under domain `"b"`: the empty
domain candidate set is falsy, so the tag hits REPLACE it instead of
intersecting it.  This refutes both parts of the claim: the returned unit
does not belong to the requested domain, and a domain with no indexed
units does not always yield an empty sequence when tags are supplied. -/
theorem c3_domain_escape_counterexample :
    kbA.domain_index "b" = [] ∧
    find_relevant_knowledge kbA "b" ["t"] [] = [unitA] ∧
    unitA.domain = "a" := by
  refine ⟨rfl, ?_, rfl⟩
  rfl

/-- C3 amended: on a completely empty store the call returns the empty
sequence for every domain, tags and keywords (and never raises — the
embedding is total); with no tags and no keywords supplied, every returned
unit belongs to the requested domain (on stores whose domain index is
well-formed) and a domain with no index entries yields the empty sequence.
When the domain candidate set is empty and tags or keywords are supplied,
the tag/keyword matches replace the domain filter and may return units of
other domains, as the counterexample shows. -/
theorem c3_domain_filter_amended :
    (∀ domain tags keywords,
      find_relevant_knowledge emptyKB domain tags keywords = []) ∧
    (∀ kb domain, DomainIndexWF kb →
      ∀ u ∈ find_relevant_knowledge kb domain [] [], u.domain = domain) ∧
    (∀ kb domain, kb.domain_index domain = [] →
      find_relevant_knowledge kb domain [] [] = []) := by
  refine ⟨?_, ?_, ?_⟩
  · intro domain tags keywords
    simp only [find_relevant_knowledge, emptyKB, List.dedup_nil, flatMap_nil_eq,
      List.filter_nil, List.map_nil, List.filterMap_nil]
    split_ifs <;> simp [sortByQualityDesc]
  · intro kb domain hwf u hu
    simp only [find_relevant_knowledge, ne_eq, not_true_eq_false, if_false,
      mem_sortByQualityDesc] at hu
    rw [List.mem_filterMap] at hu
    obtain ⟨x, hx, hget⟩ := hu
    rw [List.mem_dedup] at hx
    obtain ⟨u', hget', hdom⟩ := hwf domain x hx
    rw [hget'] at hget
    cases hget
    exact hdom
  · intro kb domain h
    simp [find_relevant_knowledge, h, sortByQualityDesc]

/-- C3 amended witness: the empty store with tags and keywords supplied;
the one-unit store queried for its own domain and for an absent domain. -/
theorem c3_domain_filter_amended_witness :
    find_relevant_knowledge emptyKB "general" ["t"] ["kw"] = [] ∧
    unitA.domain = "a" ∧
    find_relevant_knowledge kbA "b" [] [] = [] := by
  obtain ⟨h1, h2, h3⟩ := c3_domain_filter_amended
  refine ⟨h1 "general" ["t"] ["kw"], ?_, h3 kbA "b" rfl⟩
  refine h2 kbA "a" ?_ unitA ?_
  · intro d x hx
    simp only [kbA, add_knowledge_unit, emptyKB, unitA, List.nil_append] at hx
    split at hx
    · rename_i hd
      rw [List.mem_singleton] at hx
      subst hx
      exact ⟨unitA, rfl, hd.symm⟩
    · simp at hx
  · show unitA ∈ find_relevant_knowledge kbA "a" [] []
    have : find_relevant_knowledge kbA "a" [] [] = [unitA] := rfl
    rw [this]
    exact List.mem_singleton.mpr rfl

/-- The token-set similarity is nonnegative. -/
theorem jaccardSimilarity_nonneg (a b : String) : 0 ≤ jaccardSimilarity a b := by
  simp only [jaccardSimilarity]
  split
  · exact le_rfl
  · positivity

/-- The token-set similarity is at most 1. -/
theorem jaccardSimilarity_le_one (a b : String) : jaccardSimilarity a b ≤ 1 := by
  simp only [jaccardSimilarity]
  split
  · exact zero_le_one
  · rename_i h
    push_neg at h
    have hne : (wordSet a ∪ wordSet b).Nonempty :=
      (Finset.nonempty_iff_ne_empty.mpr h.1).mono Finset.subset_union_left
    have hpos : (0 : ℚ) < ((wordSet a ∪ wordSet b).card : ℚ) := by
      exact_mod_cast Finset.card_pos.mpr hne
    rw [div_le_one hpos]
    exact_mod_cast Finset.card_le_card
      (Finset.inter_subset_left.trans Finset.subset_union_left)

/-- A running maximum started at a nonnegative value stays nonnegative. -/
theorem foldl_max_nonneg (l : List ℚ) (a : ℚ) (ha : 0 ≤ a) :
    0 ≤ l.foldl max a := by
  induction l generalizing a with
  | nil => exact ha
  | cons x xs ih => exact ih (max a x) (le_trans ha (le_max_left a x))

/-- A running maximum of values at most 1, started at most 1, is at most 1. -/
theorem foldl_max_le_one (l : List ℚ) (a : ℚ) (ha : a ≤ 1)
    (h : ∀ x ∈ l, x ≤ 1) : l.foldl max a ≤ 1 := by
  induction l generalizing a with
  | nil => exact ha
  | cons x xs ih =>
    exact ih (max a x) (max_le ha (h x (List.mem_cons_self x xs)))
      (fun y hy => h y (List.mem_cons_of_mem x hy))

/-- The per-unit maximum similarity is nonnegative. -/
theorem maxSimilarity_nonneg (ex : List KnowledgeUnit) (u : KnowledgeUnit) :
    0 ≤ maxSimilarity ex u :=
  foldl_max_nonneg _ 0 le_rfl

/-- The per-unit maximum similarity is at most 1. -/
theorem maxSimilarity_le_one (ex : List KnowledgeUnit) (u : KnowledgeUnit) :
    maxSimilarity ex u ≤ 1 := by
  refine foldl_max_le_one _ 0 zero_le_one (fun x hx => ?_)
  obtain ⟨eu, _, rfl⟩ := List.mem_map.mp hx
  exact jaccardSimilarity_le_one _ _

/-! ## C6 — batch consistency is the mean of per-unit maxima, in [0,1] -/

/-- C6: the consistency score always lies in `[0,1]`; it is exactly 1 on an
empty batch of new units and exactly 1 when the domain has no prior
knowledge, regardless of the new units; when both the batch and the prior
knowledge are non-empty it is the mean over the new units of the per-unit
maximum token-set Jaccard similarity against the top 10 most relevant
(i.e. highest-quality) existing units of the domain. -/
theorem c6_consistency_mean_bounded (kb : KnowledgeBase)
    (new_units : List KnowledgeUnit) (domain : String) :
    (0 ≤ calculate_knowledge_consistency kb new_units domain ∧
      calculate_knowledge_consistency kb new_units domain ≤ 1) ∧
    (new_units = [] → calculate_knowledge_consistency kb new_units domain = 1) ∧
    (find_relevant_knowledge kb domain [] [] = [] →
      calculate_knowledge_consistency kb new_units domain = 1) ∧
    (new_units ≠ [] → find_relevant_knowledge kb domain [] [] ≠ [] →
      calculate_knowledge_consistency kb new_units domain =
        (new_units.map
            (maxSimilarity (find_relevant_knowledge kb domain [] []))).sum /
          (new_units.length : ℚ)) := by
  refine ⟨?_, fun h => by simp [calculate_knowledge_consistency, h], ?_, ?_⟩
  · by_cases h1 : new_units = []
    · simp [calculate_knowledge_consistency, h1]
    · by_cases h2 : find_relevant_knowledge kb domain [] [] = []
      · simp [calculate_knowledge_consistency, h1, h2]
      · have hform : calculate_knowledge_consistency kb new_units domain =
            (new_units.map
                (maxSimilarity (find_relevant_knowledge kb domain [] []))).sum /
              ((new_units.map
                (maxSimilarity (find_relevant_knowledge kb domain [] []))).length : ℚ) := by
          simp [calculate_knowledge_consistency, h1, h2]
        have hlen : (0 : ℚ) < ((new_units.map
            (maxSimilarity (find_relevant_knowledge kb domain [] []))).length : ℚ) := by
          rw [List.length_map]
          exact_mod_cast List.length_pos.mpr h1
        have hsum0 : (0 : ℚ) ≤ (new_units.map
            (maxSimilarity (find_relevant_knowledge kb domain [] []))).sum := by
          refine List.sum_nonneg (fun x hx => ?_)
          obtain ⟨v, _, rfl⟩ := List.mem_map.mp hx
          exact maxSimilarity_nonneg _ _
        have hsum1 : (new_units.map
            (maxSimilarity (find_relevant_knowledge kb domain [] []))).sum ≤
            ((new_units.map
              (maxSimilarity (find_relevant_knowledge kb domain [] []))).length : ℚ) := by
          have := List.sum_le_card_nsmul
            (new_units.map (maxSimilarity (find_relevant_knowledge kb domain [] []))) 1
            (fun x hx => by
              obtain ⟨v, _, rfl⟩ := List.mem_map.mp hx
              exact maxSimilarity_le_one _ _)
          simpa using this
        rw [hform]
        exact ⟨div_nonneg hsum0 hlen.le, (div_le_one hlen).mpr hsum1⟩
  · intro h
    by_cases h1 : new_units = []
    · simp [calculate_knowledge_consistency, h1]
    · simp [calculate_knowledge_consistency, h1, h]
  · intro h1 h2
    simp [calculate_knowledge_consistency, h1, h2]

/-- C6 witness: the one-unit store `kbA` with an empty batch, with a batch
against a domain that has no prior knowledge, and with a non-empty batch
against its own domain. -/
theorem c6_consistency_mean_bounded_witness :
    calculate_knowledge_consistency kbA [] "a" = 1 ∧
    calculate_knowledge_consistency kbA [unitA] "nodomain" = 1 ∧
    calculate_knowledge_consistency kbA [unitA] "a" =
      ([unitA].map (maxSimilarity (find_relevant_knowledge kbA "a" [] []))).sum /
        (([unitA] : List KnowledgeUnit).length : ℚ) := by
  refine ⟨(c6_consistency_mean_bounded kbA [] "a").2.1 rfl, ?_, ?_⟩
  · exact (c6_consistency_mean_bounded kbA [unitA] "nodomain").2.2.1 rfl
  · refine (c6_consistency_mean_bounded kbA [unitA] "a").2.2.2 (by simp) ?_
    have : find_relevant_knowledge kbA "a" [] [] = [unitA] := rfl
    simp [this]

/-- Deserialization inverts serialization field by field. -/
theorem ofSavedUnit_toSavedUnit (u : KnowledgeUnit) :
    ofSavedUnit (toSavedUnit u) = u := rfl

/-- The in-memory invariant of a store: units are keyed by their own id,
keys are unique, and each index holds exactly the ids of the stored units
with the corresponding domain/tag. -/
def Consistent (kb : KnowledgeBase) : Prop :=
  (∀ p ∈ kb.knowledge_units, p.2.id = p.1) ∧
  (kb.knowledge_units.map Prod.fst).Nodup ∧
  (∀ d x, x ∈ kb.domain_index d ↔
    ∃ p ∈ kb.knowledge_units, p.2.domain = d ∧ p.2.id = x) ∧
  (∀ t x, x ∈ kb.tag_index t ↔
    ∃ p ∈ kb.knowledge_units, t ∈ p.2.tags ∧ p.2.id = x)

/-- Replaying `add_knowledge_unit` over a list of units with fresh, unique
ids appends the corresponding bindings to the primary dict. -/
theorem foldl_add_knowledge_units (l : List KnowledgeUnit) (kb : KnowledgeBase)
    (hdisj : ∀ u ∈ l, ∀ p ∈ kb.knowledge_units, p.1 ≠ u.id)
    (hnodup : (l.map (fun u => u.id)).Nodup) :
    (l.foldl add_knowledge_unit kb).knowledge_units =
      kb.knowledge_units ++ l.map (fun u => (u.id, u)) := by
  induction l generalizing kb with
  | nil => simp
  | cons u us ih =>
    have habs : kb.knowledge_units.any (fun p => p.1 = u.id) = false := by
      rw [Bool.eq_false_iff]
      intro hc
      rw [List.any_eq_true] at hc
      obtain ⟨p, hp, hpk⟩ := hc
      rw [decide_eq_true_iff] at hpk
      exact hdisj u (List.mem_cons_self u us) p hp hpk
    have hstep : (add_knowledge_unit kb u).knowledge_units =
        kb.knowledge_units ++ [(u.id, u)] :=
      dictInsert_of_absent _ _ _ habs
    have hfresh : u.id ∉ us.map (fun v => v.id) :=
      (List.nodup_cons.mp hnodup).1
    rw [List.foldl_cons, ih (add_knowledge_unit kb u) ?_ (List.Nodup.of_cons hnodup)]
    · rw [hstep]
      simp [List.append_assoc]
    · intro v hv p hp
      rw [hstep, List.mem_append] at hp
      rcases hp with hp | hp
      · exact hdisj v (List.mem_cons_of_mem u hv) p hp
      · rw [List.mem_singleton] at hp
        subst hp
        intro hc
        apply hfresh
        have hceq : u.id = v.id := hc
        rw [hceq]
        exact List.mem_map_of_mem (fun v => v.id) hv

/-- Membership in the domain index after replaying adds. -/
theorem foldl_add_domain_mem (l : List KnowledgeUnit) (kb : KnowledgeBase)
    (d x : String) :
    x ∈ (l.foldl add_knowledge_unit kb).domain_index d ↔
      x ∈ kb.domain_index d ∨ ∃ u ∈ l, u.domain = d ∧ u.id = x := by
  induction l generalizing kb with
  | nil => simp
  | cons u us ih =>
    rw [List.foldl_cons, ih]
    have hstep : x ∈ (add_knowledge_unit kb u).domain_index d ↔
        x ∈ kb.domain_index d ∨ (u.domain = d ∧ u.id = x) := by
      show x ∈ (if d = u.domain then kb.domain_index d ++ [u.id]
          else kb.domain_index d) ↔ _
      split
      · rename_i hd
        rw [List.mem_append, List.mem_singleton]
        subst hd
        tauto
      · rename_i hd
        constructor
        · exact Or.inl
        · rintro (hx | ⟨h1, _⟩)
          · exact hx
          · exact absurd h1.symm hd
    rw [hstep]
    simp only [List.mem_cons, exists_eq_or_imp]
    tauto

/-- Membership in the tag index after replaying adds. -/
theorem foldl_add_tag_mem (l : List KnowledgeUnit) (kb : KnowledgeBase)
    (t x : String) :
    x ∈ (l.foldl add_knowledge_unit kb).tag_index t ↔
      x ∈ kb.tag_index t ∨ ∃ u ∈ l, t ∈ u.tags ∧ u.id = x := by
  induction l generalizing kb with
  | nil => simp
  | cons u us ih =>
    rw [List.foldl_cons, ih]
    have hstep : x ∈ (add_knowledge_unit kb u).tag_index t ↔
        x ∈ kb.tag_index t ∨ (t ∈ u.tags ∧ u.id = x) := by
      show x ∈ kb.tag_index t ++
          (u.tags.filter (fun tag => tag = t)).map (fun _ => u.id) ↔ _
      rw [List.mem_append, List.mem_map]
      constructor
      · rintro (hx | ⟨a, ha, hax⟩)
        · exact Or.inl hx
        · rw [List.mem_filter, decide_eq_true_iff] at ha
          exact Or.inr ⟨ha.2 ▸ ha.1, hax⟩
      · rintro (hx | ⟨ht, hid⟩)
        · exact Or.inl hx
        · refine Or.inr ⟨t, ?_, hid⟩
          rw [List.mem_filter, decide_eq_true_iff]
          exact ⟨ht, rfl⟩
    rw [hstep]
    simp only [List.mem_cons, exists_eq_or_imp]
    tauto

/-! ## C7 — snapshot save/load round-trip -/

/-- A unit that reuses the id of `unitA` (ids hash only the source task,
ordinal and content, never domain or tags, so the program can produce
this) but carries a different domain and different tags. -/
def unitA2 : KnowledgeUnit :=
  { id := "k1", content := "gamma delta", domain := "b", source_task_id := "t2"
    creation_time := 1, usage_count := 0, quality_score := 3, tags := ["s"] }

/-- The store reached by adding `unitA` and then `unitA2`: the primary
dict holds only `unitA2` (overwrite), but the indexes still list `"k1"`
under `unitA`'s domain `"a"` and tag `"t"` — stale entries the source
never removes. -/
def kbMixed : KnowledgeBase :=
  add_knowledge_unit (add_knowledge_unit emptyKB unitA) unitA2

/-- C7 counterexample: the round trip does not preserve index membership
for every store state.  On `kbMixed` — reached from the fresh store by two
plain `add_knowledge_unit` calls — the id `"k1"` is indexed under domain
`"a"` and tag `"t"` before saving, but `save_knowledge_base` serializes
only the surviving units and `load_knowledge_base` rebuilds the indexes
from them, so both stale memberships are gone after the round trip. -/
theorem c7_roundtrip_counterexample :
    kbMixed.knowledge_units = [("k1", unitA2)] ∧
    "k1" ∈ kbMixed.domain_index "a" ∧
    "k1" ∉ (load_knowledge_base (save_knowledge_base kbMixed)).domain_index "a" ∧
    "k1" ∈ kbMixed.tag_index "t" ∧
    "k1" ∉ (load_knowledge_base (save_knowledge_base kbMixed)).tag_index "t" := by
  have hdom : kbMixed.domain_index "a" = ["k1"] := rfl
  have htagidx : kbMixed.tag_index "t" = ["k1"] := rfl
  have hdom2 : (load_knowledge_base (save_knowledge_base kbMixed)).domain_index "a" =
      [] := rfl
  have htag2 : (load_knowledge_base (save_knowledge_base kbMixed)).tag_index "t" =
      [] := rfl
  refine ⟨rfl, ?_, ?_, ?_, ?_⟩
  · rw [hdom]; exact List.mem_singleton.mpr rfl
  · rw [hdom2]; exact List.not_mem_nil "k1"
  · rw [htagidx]; exact List.mem_singleton.mpr rfl
  · rw [htag2]; exact List.not_mem_nil "k1"

/-- C7 amended: on every consistent store — one whose units are keyed by
their own unique ids and whose indexes hold exactly the ids of the stored
units with the corresponding domain/tag — saving the snapshot and loading
it into a fresh store reproduces the primary id→unit mapping exactly
(every field of every unit, timestamps included, survives the
serialization) and reproduces the membership of both secondary indexes,
which the load path rebuilds by replaying `add_knowledge_unit` rather than
reading them from the snapshot (they are never persisted).  Stores with
stale index entries, as in the counterexample, lose those memberships. -/
theorem c7_snapshot_roundtrip (kb : KnowledgeBase) (h : Consistent kb) :
    (load_knowledge_base (save_knowledge_base kb)).knowledge_units =
        kb.knowledge_units ∧
    (∀ d x, x ∈ (load_knowledge_base (save_knowledge_base kb)).domain_index d ↔
        x ∈ kb.domain_index d) ∧
    (∀ t x, x ∈ (load_knowledge_base (save_knowledge_base kb)).tag_index t ↔
        x ∈ kb.tag_index t) := by
  obtain ⟨hid, hnodup, hdom, htag⟩ := h
  have hload : load_knowledge_base (save_knowledge_base kb) =
      (kb.knowledge_units.map (fun p => p.2)).foldl add_knowledge_unit emptyKB := by
    unfold load_knowledge_base save_knowledge_base
    rw [List.foldl_map]
    simp only [ofSavedUnit_toSavedUnit]
    rw [List.foldl_map]
  have hnodup_l :
      ((kb.knowledge_units.map (fun p => p.2)).map (fun u => u.id)).Nodup := by
    rw [List.map_map]
    have : kb.knowledge_units.map ((fun u => u.id) ∘ (fun p => p.2)) =
        kb.knowledge_units.map Prod.fst :=
      List.map_congr_left (fun p hp => hid p hp)
    rw [this]
    exact hnodup
  refine ⟨?_, ?_, ?_⟩
  · rw [hload, foldl_add_knowledge_units _ emptyKB (by intro u _ p hp; cases hp)
      hnodup_l]
    show [] ++ _ = _
    rw [List.nil_append, List.map_map]
    have : kb.knowledge_units.map ((fun u => (u.id, u)) ∘ (fun p => p.2)) =
        kb.knowledge_units.map (fun p => (p.1, p.2)) :=
      List.map_congr_left (fun p hp => by
        simp only [Function.comp_apply, hid p hp])
    rw [this]
    simp
  · intro d x
    rw [hload, foldl_add_domain_mem, hdom d x]
    constructor
    · rintro (hx | ⟨u, hu, hud, hux⟩)
      · cases hx
      · obtain ⟨p, hp, hpu⟩ := List.mem_map.mp hu
        exact ⟨p, hp, hpu.symm ▸ ⟨hud, hux⟩⟩
    · rintro ⟨p, hp, hpd, hpx⟩
      exact Or.inr ⟨p.2, List.mem_map_of_mem _ hp, hpd, hpx⟩
  · intro t x
    rw [hload, foldl_add_tag_mem, htag t x]
    constructor
    · rintro (hx | ⟨u, hu, hut, hux⟩)
      · cases hx
      · obtain ⟨p, hp, hpu⟩ := List.mem_map.mp hu
        exact ⟨p, hp, hpu.symm ▸ ⟨hut, hux⟩⟩
    · rintro ⟨p, hp, hpt, hpx⟩
      exact Or.inr ⟨p.2, List.mem_map_of_mem _ hp, hpt, hpx⟩

/-- The one-unit store satisfies the store invariant. -/
theorem kbA_consistent : Consistent kbA := by
  have hunits : kbA.knowledge_units = [("k1", unitA)] := rfl
  refine ⟨?_, ?_, ?_, ?_⟩
  · intro p hp
    rw [hunits, List.mem_singleton] at hp
    subst hp
    rfl
  · rw [hunits]
    simp
  · intro d x
    show x ∈ (if d = unitA.domain then emptyKB.domain_index d ++ [unitA.id]
        else emptyKB.domain_index d) ↔ _
    rw [hunits]
    split
    · rename_i hd
      simp only [emptyKB, List.nil_append, List.mem_singleton,
        List.mem_cons, List.not_mem_nil, or_false]
      constructor
      · rintro rfl
        exact ⟨("k1", unitA), rfl, hd.symm, rfl⟩
      · rintro ⟨p, hp, _, hpx⟩
        subst hp
        exact hpx.symm
    · rename_i hd
      simp only [emptyKB, List.not_mem_nil, false_iff]
      rintro ⟨p, hp, hpd, _⟩
      rw [List.mem_singleton] at hp
      subst hp
      exact hd hpd.symm
  · intro t x
    show x ∈ emptyKB.tag_index t ++
        (unitA.tags.filter (fun tag => tag = t)).map (fun _ => unitA.id) ↔ _
    rw [hunits]
    simp only [emptyKB, List.nil_append, List.mem_map, List.mem_filter,
      decide_eq_true_iff, List.mem_cons, List.not_mem_nil, or_false]
    constructor
    · rintro ⟨a, ⟨ha, hat⟩, hax⟩
      exact ⟨("k1", unitA), rfl, hat ▸ ha, hax⟩
    · rintro ⟨p, hp, hpt, hpx⟩
      subst hp
      exact ⟨t, ⟨hpt, rfl⟩, hpx⟩

/-- C7 witness: the round-trip theorem applied to the one-unit store. -/
theorem c7_snapshot_roundtrip_witness :
    (load_knowledge_base (save_knowledge_base kbA)).knowledge_units =
        kbA.knowledge_units ∧
    ("k1" ∈ (load_knowledge_base (save_knowledge_base kbA)).domain_index "a" ↔
        "k1" ∈ kbA.domain_index "a") ∧
    ("k1" ∈ (load_knowledge_base (save_knowledge_base kbA)).tag_index "t" ↔
        "k1" ∈ kbA.tag_index "t") := by
  obtain ⟨h1, h2, h3⟩ := c7_snapshot_roundtrip kbA kbA_consistent
  exact ⟨h1, h2 "a" "k1", h3 "t" "k1"⟩

end POET
